import Mathlib

/-!
Verification of `src/prototype/lexer/lol_lexer_types.py`: the `TokenType`
enumeration, the `Token` value type with its serialization, and the
`CharacterStream` cursor.  The Python source is embedded shallowly: the
source text is a `List Char`, the unbounded Python integers are `Nat`,
methods that mutate `self` become state-passing functions, and methods
that merely read `self` become pure functions.  A small operational layer
(`CSOp`/`step`, `TokOp`/`tokenStep`) records, for each method call, both
its return value and the state after the call, so that claims of the form
"this operation does not modify the receiver" are provable facts rather
than artifacts of the embedding.
-/

/-- The `TokenType` enumeration of the source, one constructor per
`auto()` member, in source order. -/
inductive TokenType where
  | LPAREN | RPAREN | LSQB | RSQB | LBRACE | RBRACE
  | DOT | COMMA | EQUAL | COLON | SEMICOLON
  | ARROW
  | COLON_COLON | EXCLAMATION | AT | PERCENT | CIRCUMFLEX | AMPERSAND
  | STAR | PLUS | MINUS | SLASH
  | RSHIFT | LSHIFT | QUESTION | VBAR | BSLASH
  | EQUAL_EQUAL | NOT_EQUAL | GREATER | LESSER | GREATER_EQUAL | LESSER_EQUAL
  | STAR_STAR | PLUS_PLUS | MINUS_MINUS | SLASH_SLASH
  | NEWLINE
  | IDENTIFIER | STRING | DEC | COMMENT
  | IF | ELSE | WHILE | FUNCTION | RETURN | LET
  | NAMESPACE | MODULE | IMPORT | PRINT
  deriving DecidableEq, Repr

/-- Python's `Enum.name`: the string name of the enumeration member. -/
def TokenType.name : TokenType → String
  | .LPAREN => "LPAREN"
  | .RPAREN => "RPAREN"
  | .LSQB => "LSQB"
  | .RSQB => "RSQB"
  | .LBRACE => "LBRACE"
  | .RBRACE => "RBRACE"
  | .DOT => "DOT"
  | .COMMA => "COMMA"
  | .EQUAL => "EQUAL"
  | .COLON => "COLON"
  | .SEMICOLON => "SEMICOLON"
  | .ARROW => "ARROW"
  | .COLON_COLON => "COLON_COLON"
  | .EXCLAMATION => "EXCLAMATION"
  | .AT => "AT"
  | .PERCENT => "PERCENT"
  | .CIRCUMFLEX => "CIRCUMFLEX"
  | .AMPERSAND => "AMPERSAND"
  | .STAR => "STAR"
  | .PLUS => "PLUS"
  | .MINUS => "MINUS"
  | .SLASH => "SLASH"
  | .RSHIFT => "RSHIFT"
  | .LSHIFT => "LSHIFT"
  | .QUESTION => "QUESTION"
  | .VBAR => "VBAR"
  | .BSLASH => "BSLASH"
  | .EQUAL_EQUAL => "EQUAL_EQUAL"
  | .NOT_EQUAL => "NOT_EQUAL"
  | .GREATER => "GREATER"
  | .LESSER => "LESSER"
  | .GREATER_EQUAL => "GREATER_EQUAL"
  | .LESSER_EQUAL => "LESSER_EQUAL"
  | .STAR_STAR => "STAR_STAR"
  | .PLUS_PLUS => "PLUS_PLUS"
  | .MINUS_MINUS => "MINUS_MINUS"
  | .SLASH_SLASH => "SLASH_SLASH"
  | .NEWLINE => "NEWLINE"
  | .IDENTIFIER => "IDENTIFIER"
  | .STRING => "STRING"
  | .DEC => "DEC"
  | .COMMENT => "COMMENT"
  | .IF => "IF"
  | .ELSE => "ELSE"
  | .WHILE => "WHILE"
  | .FUNCTION => "FUNCTION"
  | .RETURN => "RETURN"
  | .LET => "LET"
  | .NAMESPACE => "NAMESPACE"
  | .MODULE => "MODULE"
  | .IMPORT => "IMPORT"
  | .PRINT => "PRINT"

/-- The `Token` class: the five fields set by `__init__`, in source order. -/
structure Token where
  idx : Nat
  line_number : Nat
  column_number : Nat
  token_type : TokenType
  lexeme : String
  deriving DecidableEq, Repr

/-- `Token.is_type`: `self.token_type == token_type`. -/
def Token.is_type (t : Token) (token_type : TokenType) : Bool :=
  t.token_type == token_type

/-- `Token.as_str`: returns `self.lexeme`. -/
def Token.as_str (t : Token) : String :=
  t.lexeme

/-- `Token.type`: returns `self.token_type`. -/
def Token.type (t : Token) : TokenType :=
  t.token_type

/-- `Token.type_name`: returns `self.token_type.name`. -/
def Token.type_name (t : Token) : String :=
  t.token_type.name

/-- `Token.__repr__`: the pretty-printed token. -/
def Token.repr (t : Token) : String :=
  s!"`{t.lexeme}`: {t.token_type.name} at position {t.idx} (line {t.line_number}:col {t.column_number})"

/-- A value stored in the dictionary built by `Token.to_dict`: the source
stores strings (`name`, `lexeme`) and integers (offset, line, column,
length). -/
inductive DictVal where
  | str (s : String)
  | nat (n : Nat)
  deriving DecidableEq, Repr

/-- `Token.to_dict`: the serialized token, as the association list built by
the `dict(...)` call, with the keys in the source's keyword order (Python
dictionaries preserve insertion order). -/
def Token.to_dict (t : Token) : List (String × DictVal) :=
  [("TokenType", DictVal.str t.token_type.name),
   ("StartPosition", DictVal.nat t.idx),
   ("LineNumber", DictVal.nat t.line_number),
   ("ColumnNumber", DictVal.nat t.column_number),
   ("LexemeLength", DictVal.nat t.lexeme.length),
   ("Lexeme", DictVal.str t.lexeme)]

/-- The operations of the `Token` class. -/
inductive TokOp where
  | isType (token_type : TokenType)
  | asStr
  | typeOf
  | typeName
  | reprOp
  | toDictOp
  deriving DecidableEq, Repr

/-- The return value of a `Token` operation. -/
inductive TokResult where
  | b (x : Bool)
  | s (x : String)
  | tt (x : TokenType)
  | d (x : List (String × DictVal))
  deriving DecidableEq, Repr

/-- One `Token` method call: its return value paired with the state of the
receiver after the call.  Each branch is the transcription of the method
body; no method body assigns to a field of `self`, so each returns the
receiver unchanged. -/
def tokenStep : TokOp → Token → TokResult × Token
  | .isType x, t => (.b (t.is_type x), t)
  | .asStr, t => (.s t.as_str, t)
  | .typeOf, t => (.tt t.type, t)
  | .typeName, t => (.s t.type_name, t)
  | .reprOp, t => (.s t.repr, t)
  | .toDictOp, t => (.d t.to_dict, t)

/-- The `CharacterStream` class: the four fields set by `__init__`. -/
structure CharacterStream where
  text : List Char
  idx : Nat
  line_number : Nat
  column_number : Nat
  deriving DecidableEq, Repr

/-- `CharacterStream.__init__(text)`: idx 0, line 1, column 1. -/
def CharacterStream.init (text : List Char) : CharacterStream :=
  { text := text, idx := 0, line_number := 1, column_number := 1 }

/-- `CharacterStream.get_text`: returns `self.text`. -/
def CharacterStream.get_text (s : CharacterStream) : List Char :=
  s.text

/-- `CharacterStream.get_char`: `None` when `self.idx >= len(self.text)`,
otherwise `self.text[self.idx]` (in bounds by the guard). -/
def CharacterStream.get_char (s : CharacterStream) : Option Char :=
  if h : s.text.length ≤ s.idx then none
  else some (s.text.get ⟨s.idx, by omega⟩)

/-- `CharacterStream.next_char`: return early when `get_char` is `None`;
otherwise `idx += 1`, then on a newline `line += 1; column = 1`, else
`column += 1`. -/
def CharacterStream.next_char (s : CharacterStream) : CharacterStream :=
  match s.get_char with
  | none => s
  | some c =>
    let s1 := { s with idx := s.idx + 1 }
    if c = '\n' then
      { s1 with line_number := s1.line_number + 1, column_number := 1 }
    else
      { s1 with column_number := s1.column_number + 1 }

/-- `CharacterStream.get_pos`: the `(absolute_index, line_number,
column_number)` tuple. -/
def CharacterStream.get_pos (s : CharacterStream) : Nat × Nat × Nat :=
  (s.idx, s.line_number, s.column_number)

/-- `get_char` with Python's indexing made fallible: `self.text[self.idx]`
raises `IndexError` when the index is out of range, modelled by `Except`.
Used to state that the guarded access in the source never fails. -/
def CharacterStream.get_charE (s : CharacterStream) : Except String (Option Char) :=
  if s.text.length ≤ s.idx then Except.ok none
  else
    match s.text.get? s.idx with
    | some c => Except.ok (some c)
    | none => Except.error "IndexError"

/-- `next_char` built on the fallible `get_charE`; an error in the read
propagates. -/
def CharacterStream.next_charE (s : CharacterStream) : Except String CharacterStream :=
  match s.get_charE with
  | Except.error e => Except.error e
  | Except.ok none => Except.ok s
  | Except.ok (some c) =>
    let s1 := { s with idx := s.idx + 1 }
    if c = '\n' then
      Except.ok { s1 with line_number := s1.line_number + 1, column_number := 1 }
    else
      Except.ok { s1 with column_number := s1.column_number + 1 }

/-- `get_pos` as a fallible computation (it performs no indexing, so it is
trivially error-free). -/
def CharacterStream.get_posE (s : CharacterStream) : Except String (Nat × Nat × Nat) :=
  Except.ok s.get_pos

/-- The operations of the `CharacterStream` cursor. -/
inductive CSOp where
  | peek
  | advance
  | getPos
  deriving DecidableEq, Repr

/-- The return value of a cursor operation. -/
inductive CSResult where
  | char (c : Option Char)
  | pos (p : Nat × Nat × Nat)
  | unit
  deriving DecidableEq, Repr

/-- One cursor method call: return value paired with the state after the
call.  `get_char` and `get_pos` assign no field of `self`; `next_char`
returns `None` and updates the counters. -/
def step : CSOp → CharacterStream → CSResult × CharacterStream
  | .peek, s => (.char s.get_char, s)
  | .advance, s => (.unit, s.next_char)
  | .getPos, s => (.pos s.get_pos, s)

/-- The cursor state after a sequence of operations. -/
def run : List CSOp → CharacterStream → CharacterStream
  | [], s => s
  | op :: ops, s => run ops (step op s).2

/-- The cursor state after `n` calls to `next_char`. -/
def advanceN : Nat → CharacterStream → CharacterStream
  | 0, s => s
  | n + 1, s => (advanceN n s).next_char

/-! ## Helper lemmas about the cursor -/

theorem CharacterStream.get_char_eq_none (s : CharacterStream)
    (h : s.text.length ≤ s.idx) : s.get_char = none := by
  simp [CharacterStream.get_char, h]

theorem CharacterStream.get_char_eq_some (s : CharacterStream)
    (h : s.idx < s.text.length) :
    s.get_char = some (s.text.get ⟨s.idx, h⟩) := by
  simp [CharacterStream.get_char, Nat.not_le.mpr h]

theorem CharacterStream.next_char_of_ge (s : CharacterStream)
    (h : s.text.length ≤ s.idx) : s.next_char = s := by
  simp [CharacterStream.next_char, s.get_char_eq_none h]

theorem CharacterStream.next_char_of_lt (s : CharacterStream)
    (h : s.idx < s.text.length) :
    s.next_char =
      if s.text.get ⟨s.idx, h⟩ = '\n' then
        { s with idx := s.idx + 1, line_number := s.line_number + 1,
                 column_number := 1 }
      else
        { s with idx := s.idx + 1, column_number := s.column_number + 1 } := by
  simp [CharacterStream.next_char, s.get_char_eq_some h]

/-- The column number recomputed from the consumed prefix: one more than
the number of characters since the last newline. -/
def colOf (p : List Char) : Nat :=
  (p.reverse.takeWhile (fun c => c != '\n')).length + 1

/-- The reachable-state invariant of `CharacterStream`: the text is the
construction-time text, the offset never exceeds its length, the line
number is one more than the number of newlines consumed, and the column
number counts the characters since the last consumed newline, plus one. -/
def CSInv (text : List Char) (s : CharacterStream) : Prop :=
  s.text = text ∧ s.idx ≤ text.length ∧
  s.line_number = (text.take s.idx).count '\n' + 1 ∧
  s.column_number = colOf (text.take s.idx)

theorem colOf_append_newline (p : List Char) : colOf (p ++ ['\n']) = 1 := by
  simp [colOf, List.takeWhile_cons]

theorem colOf_append_other (p : List Char) (c : Char) (hc : c ≠ '\n') :
    colOf (p ++ [c]) = colOf p + 1 := by
  simp [colOf, List.takeWhile_cons, hc]

theorem take_succ_of_lt (text : List Char) (i : Nat) (h : i < text.length) :
    text.take (i + 1) = text.take i ++ [text.get ⟨i, h⟩] := by
  rw [List.take_succ]
  simp [List.getElem?_eq_getElem h]

theorem CSInv_init (text : List Char) : CSInv text (CharacterStream.init text) := by
  refine ⟨rfl, Nat.zero_le _, ?_, ?_⟩ <;> simp [CharacterStream.init, colOf]

theorem CSInv_next_char {text : List Char} {s : CharacterStream}
    (hs : CSInv text s) : CSInv text s.next_char := by
  obtain ⟨ht, hle, hline, hcol⟩ := hs
  subst ht
  by_cases h : s.text.length ≤ s.idx
  · rw [s.next_char_of_ge h]; exact ⟨rfl, hle, hline, hcol⟩
  · have hlt : s.idx < s.text.length := Nat.lt_of_not_le h
    rw [s.next_char_of_lt hlt]
    have htake : s.text.take (s.idx + 1)
        = s.text.take s.idx ++ [s.text.get ⟨s.idx, hlt⟩] :=
      take_succ_of_lt _ _ hlt
    by_cases hc : s.text.get ⟨s.idx, hlt⟩ = '\n'
    · rw [if_pos hc]
      rw [hc] at htake
      refine ⟨rfl, hlt, ?_, ?_⟩
      · show s.line_number + 1 = (s.text.take (s.idx + 1)).count '\n' + 1
        rw [htake, List.count_append, hline]
        simp [List.count_cons]
      · show (1 : Nat) = colOf (s.text.take (s.idx + 1))
        rw [htake, colOf_append_newline]
    · rw [if_neg hc]
      refine ⟨rfl, hlt, ?_, ?_⟩
      · show s.line_number = (s.text.take (s.idx + 1)).count '\n' + 1
        rw [htake, List.count_append, hline]
        rw [List.get_eq_getElem] at hc
        simp [List.count_cons, hc]
      · show s.column_number + 1 = colOf (s.text.take (s.idx + 1))
        rw [htake, colOf_append_other _ _ hc, hcol]

theorem CSInv_step {text : List Char} {s : CharacterStream} (op : CSOp)
    (hs : CSInv text s) : CSInv text (step op s).2 := by
  cases op with
  | peek => exact hs
  | advance => exact CSInv_next_char hs
  | getPos => exact hs

theorem CSInv_run {text : List Char} (ops : List CSOp) {s : CharacterStream}
    (hs : CSInv text s) : CSInv text (run ops s) := by
  induction ops generalizing s with
  | nil => exact hs
  | cons op ops ih => exact ih (CSInv_step op hs)

theorem CSInv_advanceN {text : List Char} (n : Nat) {s : CharacterStream}
    (hs : CSInv text s) : CSInv text (advanceN n s) := by
  induction n with
  | zero => exact hs
  | succ n ih => exact CSInv_next_char ih

theorem idx_le_next_char (s : CharacterStream) : s.idx ≤ s.next_char.idx := by
  by_cases h : s.text.length ≤ s.idx
  · rw [s.next_char_of_ge h]
  · have hlt : s.idx < s.text.length := Nat.lt_of_not_le h
    rw [s.next_char_of_lt hlt]
    split <;> simp

theorem idx_le_step (op : CSOp) (s : CharacterStream) :
    s.idx ≤ ((step op s).2).idx := by
  cases op with
  | peek => exact Nat.le_refl _
  | advance => exact idx_le_next_char s
  | getPos => exact Nat.le_refl _

theorem idx_le_run (ops : List CSOp) (s : CharacterStream) :
    s.idx ≤ (run ops s).idx := by
  induction ops generalizing s with
  | nil => exact Nat.le_refl _
  | cons op ops ih =>
    exact Nat.le_trans (idx_le_step op s) (ih (step op s).2)

theorem run_append (ops ops' : List CSOp) (s : CharacterStream) :
    run (ops ++ ops') s = run ops' (run ops s) := by
  induction ops generalizing s with
  | nil => rfl
  | cons op ops ih => simp [run, ih]

theorem colOf_eq_one_of_getLast (p : List Char) (h : p.getLast? = some '\n') :
    colOf p = 1 := by
  have hh : p.reverse.head? = some '\n' := by rw [List.head?_reverse, h]
  unfold colOf
  cases hr : p.reverse with
  | nil => rw [hr] at hh; simp at hh
  | cons a as =>
    rw [hr] at hh
    simp only [List.head?_cons, Option.some_inj] at hh
    simp [List.takeWhile_cons, hh]

theorem get_charE_eq (s : CharacterStream) :
    s.get_charE = Except.ok s.get_char := by
  by_cases h : s.text.length ≤ s.idx
  · simp [CharacterStream.get_charE, CharacterStream.get_char, h]
  · have hlt : s.idx < s.text.length := Nat.lt_of_not_le h
    simp [CharacterStream.get_charE, CharacterStream.get_char, h,
      List.getElem?_eq_getElem hlt]

theorem next_charE_eq (s : CharacterStream) :
    s.next_charE = Except.ok s.next_char := by
  unfold CharacterStream.next_charE CharacterStream.next_char
  rw [get_charE_eq s]
  cases hc : s.get_char with
  | none => rfl
  | some c => by_cases h : c = '\n' <;> simp [h]

theorem tokenStep_state (op : TokOp) (t : Token) : (tokenStep op t).2 = t := by
  cases op <;> rfl

/-! ## The claims -/

/-- Claim C1: for every reachable cursor state, `next_char` is a no-op at
end-of-input (`idx = length text`); otherwise it consumes exactly one
character: `idx` grows by exactly 1, a consumed newline increments the
line number and resets the column number to 1, any other character
increments the column number; no other field changes (the `{s with ...}`
records fix every remaining field). -/
theorem claim_C1 (s : CharacterStream) (hr : s.idx ≤ s.text.length) :
    (s.idx = s.text.length → s.next_char = s) ∧
    ∀ h2 : s.idx < s.text.length,
      s.next_char =
        if s.text.get ⟨s.idx, h2⟩ = '\n' then
          { s with idx := s.idx + 1, line_number := s.line_number + 1,
                   column_number := 1 }
        else
          { s with idx := s.idx + 1, column_number := s.column_number + 1 } := by
  refine ⟨fun he => s.next_char_of_ge (Nat.le_of_eq he.symm),
    fun h2 => s.next_char_of_lt h2⟩

theorem claim_C1_witness :
    CharacterStream.next_char ⟨['\n'], 0, 1, 1⟩ = ⟨['\n'], 1, 2, 1⟩ ∧
    CharacterStream.next_char ⟨['a'], 1, 1, 2⟩ = ⟨['a'], 1, 1, 2⟩ := by
  constructor
  · have h := (claim_C1 ⟨['\n'], 0, 1, 1⟩ (by decide)).2 (by decide)
    rw [h]; decide
  · exact (claim_C1 ⟨['a'], 1, 1, 2⟩ (by decide)).1 (by decide)

/-- Claim C2: along every sequence of peek/advance/get_pos operations from
a fresh cursor, the offset is monotonically non-decreasing and never
exceeds the length of the text; once the offset equals the length,
`next_char` leaves the state unchanged and `get_char` returns `none`. -/
theorem claim_C2 (text : List Char) (ops ops' : List CSOp) :
    (run ops (CharacterStream.init text)).idx ≤
      (run (ops ++ ops') (CharacterStream.init text)).idx ∧
    (run ops (CharacterStream.init text)).idx ≤ text.length ∧
    ((run ops (CharacterStream.init text)).idx = text.length →
      (run ops (CharacterStream.init text)).next_char =
        run ops (CharacterStream.init text) ∧
      (run ops (CharacterStream.init text)).get_char = none) := by
  obtain ⟨ht, hle, -, -⟩ := CSInv_run ops (CSInv_init text)
  refine ⟨?_, hle, ?_⟩
  · rw [run_append]; exact idx_le_run ops' _
  · intro he
    have hge : (run ops (CharacterStream.init text)).text.length ≤
        (run ops (CharacterStream.init text)).idx := by rw [ht, he]
    exact ⟨(run ops (CharacterStream.init text)).next_char_of_ge hge,
      (run ops (CharacterStream.init text)).get_char_eq_none hge⟩

theorem claim_C2_witness :
    (run [CSOp.advance] (CharacterStream.init ['a'])).next_char =
      run [CSOp.advance] (CharacterStream.init ['a']) ∧
    (run [CSOp.advance] (CharacterStream.init ['a'])).get_char = none :=
  (claim_C2 ['a'] [CSOp.advance] []).2.2 (by decide)

/-- Claim C3: after any number of `next_char` calls from a fresh cursor,
the line number equals the number of newline characters consumed so far
(the consumed prefix is `text.take idx`) plus 1, and whenever the most
recently consumed character was a newline the column number is 1. -/
theorem claim_C3 (text : List Char) (n : Nat) :
    (advanceN n (CharacterStream.init text)).line_number =
      (text.take (advanceN n (CharacterStream.init text)).idx).count '\n' + 1 ∧
    ((text.take (advanceN n (CharacterStream.init text)).idx).getLast? =
        some '\n' →
      (advanceN n (CharacterStream.init text)).column_number = 1) := by
  obtain ⟨-, -, hline, hcol⟩ := CSInv_advanceN n (CSInv_init text)
  exact ⟨hline, fun hlast => by rw [hcol, colOf_eq_one_of_getLast _ hlast]⟩

theorem claim_C3_witness :
    (advanceN 1 (CharacterStream.init ['\n', 'a'])).column_number = 1 ∧
    (advanceN 1 (CharacterStream.init ['\n', 'a'])).line_number =
      (['\n', 'a'].take (advanceN 1 (CharacterStream.init ['\n', 'a'])).idx).count '\n' + 1 :=
  ⟨(claim_C3 ['\n', 'a'] 1).2 (by decide), (claim_C3 ['\n', 'a'] 1).1⟩

/-- Claim C4: `get_char` returns the character at the current offset when
the offset is strictly below the text length, returns `none` when the
offset has reached the text length, and as an operation does not modify
the cursor (`step` returns the receiver unchanged). -/
theorem claim_C4 (s : CharacterStream) :
    (∀ h : s.idx < s.text.length,
      s.get_char = some (s.text.get ⟨s.idx, h⟩)) ∧
    (s.idx = s.text.length → s.get_char = none) ∧
    step CSOp.peek s = (CSResult.char s.get_char, s) :=
  ⟨fun h => s.get_char_eq_some h,
   fun he => s.get_char_eq_none (Nat.le_of_eq he.symm), rfl⟩

theorem claim_C4_witness :
    CharacterStream.get_char ⟨['a'], 0, 1, 1⟩ = some 'a' ∧
    CharacterStream.get_char ⟨['a'], 1, 1, 1⟩ = none := by
  constructor
  · have h := (claim_C4 ⟨['a'], 0, 1, 1⟩).1 (by decide)
    rw [h]; decide
  · exact (claim_C4 ⟨['a'], 1, 1, 1⟩).2.1 (by decide)

/-- Claim C5: every cursor operation is total: with Python's fallible
indexing modelled by `Except` (`IndexError` on an out-of-range access),
`get_char`, `next_char` and `get_pos` return `Except.ok` of their pure
values on every state, including every state over the empty text. -/
theorem claim_C5 (s : CharacterStream) :
    s.get_charE = Except.ok s.get_char ∧
    s.next_charE = Except.ok s.next_char ∧
    s.get_posE = Except.ok s.get_pos :=
  ⟨get_charE_eq s, next_charE_eq s, rfl⟩

/-- Claim C6: the serialized token exposes exactly the six fields
TokenType (the enum member's string name), StartPosition, LineNumber,
ColumnNumber, LexemeLength and Lexeme, in that order, with the stated
values. -/
theorem claim_C6 (t : Token) :
    (t.to_dict).map Prod.fst =
      ["TokenType", "StartPosition", "LineNumber", "ColumnNumber",
       "LexemeLength", "Lexeme"] ∧
    (t.to_dict).lookup "TokenType" = some (DictVal.str t.token_type.name) ∧
    (t.to_dict).lookup "StartPosition" = some (DictVal.nat t.idx) ∧
    (t.to_dict).lookup "LineNumber" = some (DictVal.nat t.line_number) ∧
    (t.to_dict).lookup "ColumnNumber" = some (DictVal.nat t.column_number) ∧
    (t.to_dict).lookup "LexemeLength" = some (DictVal.nat t.lexeme.length) ∧
    (t.to_dict).lookup "Lexeme" = some (DictVal.str t.lexeme) := by
  refine ⟨rfl, ?_, ?_, ?_, ?_, ?_, ?_⟩ <;> rfl

/-- Claim C7: `get_pos` returns the `(offset, line, column)` triple and as
an operation does not modify the cursor. -/
theorem claim_C7 (s : CharacterStream) :
    s.get_pos = (s.idx, s.line_number, s.column_number) ∧
    step CSOp.getPos s = (CSResult.pos s.get_pos, s) :=
  ⟨rfl, rfl⟩

/-- Claim C8: a freshly constructed cursor has offset 0, line number 1 and
column number 1, and stores the given text. -/
theorem claim_C8 (text : List Char) :
    (CharacterStream.init text).idx = 0 ∧
    (CharacterStream.init text).line_number = 1 ∧
    (CharacterStream.init text).column_number = 1 ∧
    (CharacterStream.init text).text = text :=
  ⟨rfl, rfl, rfl, rfl⟩

/-- Claim C9: a `Token` is immutable: every operation of the type
(`is_type`, `as_str`, `type`, `type_name`, `__repr__`, `to_dict`) leaves
the receiver unchanged, and so does every sequence of such operations;
the token is a self-contained value (its fields are the five construction
arguments and nothing else, with the lexeme held by value). -/
theorem claim_C9 (t : Token) (ops : List TokOp) :
    (∀ op, (tokenStep op t).2 = t) ∧
    ops.foldl (fun a o => (tokenStep o a).2) t = t := by
  refine ⟨fun op => tokenStep_state op t, ?_⟩
  induction ops generalizing t with
  | nil => rfl
  | cons o os ih => rw [List.foldl_cons, tokenStep_state]; exact ih t

/-- Claim C10: the serialized record is consistent with the constructed
token: LexemeLength equals the length of the Lexeme entry's string,
`as_str` returns the construction lexeme, `type_name` the name of the
construction type, and `is_type x` holds exactly when `x` is the
construction type. -/
theorem claim_C10 (i ln col : Nat) (tt : TokenType) (lex : String) :
    (Token.mk i ln col tt lex).to_dict.lookup "LexemeLength" =
      some (DictVal.nat lex.length) ∧
    (Token.mk i ln col tt lex).to_dict.lookup "Lexeme" =
      some (DictVal.str lex) ∧
    (Token.mk i ln col tt lex).as_str = lex ∧
    (Token.mk i ln col tt lex).type_name = tt.name ∧
    ∀ x : TokenType, (Token.mk i ln col tt lex).is_type x = true ↔ x = tt := by
  refine ⟨rfl, rfl, rfl, rfl, fun x => ?_⟩
  simp only [Token.is_type, beq_iff_eq]
  exact eq_comm
